import Mathlib

/-!
Formal model of the `SequencerRealtime` dashboard component (`src/index.js`):
the realtime data-synchronization layer of the wagon/container sequencing UI.

The JavaScript is shallowly embedded as pure Lean functions:
* JSON field values that can be absent, numeric or textual are modelled by `TVal`;
  JS `??` (nullish coalescing) skips only `TVal.none`.
* Host functions `Date.parse` and millisecond clocks are modelled by an explicit
  parse parameter `dateParse : String → Option Int`, where `Option.none` stands
  for `NaN`.  JSON cannot carry `NaN`/`Infinity`, so numeric fields are `Int`.
* React state is an explicit `AppState` record; each completed network fetch is a
  pure state transformer.  React closures capture the `buffer` binding of the
  render that created them, so fetch steps take the captured value `bufClosure`
  explicitly: handlers registered by the mount effect captured the initial
  `null`, while a handler created in a later render captures that render's value.
* ECMAScript `Array.prototype.sort` with the consistent comparator
  `(a, b) => rowTimestamp(b) - rowTimestamp(a)` is required to be a stable sort,
  which is modelled exactly by `List.mergeSort`.
-/

namespace Sequencing

/-- A JSON-ish field value: absent/null, a (finite) number, or a string. -/
inductive TVal where
  | none
  | num (n : Int)
  | str (s : String)
deriving DecidableEq

/-- JS truthiness of a `TVal`: `null`/`undefined`, `0` and `""` are falsy. -/
def TVal.truthy : TVal → Bool
  | .none => false
  | .num n => n != 0
  | .str s => s != ""

/-- JS nullish coalescing `a ?? b`: takes `b` only when `a` is null/undefined. -/
def nullish (a b : TVal) : TVal :=
  match a with
  | .none => b
  | _ => a

/-- One sequencing row, with the fields the component reads
(`id`, display strings, container slots, timestamps). -/
structure Row where
  id : Option Int
  wagon_no : Option String
  train_no : Option String
  side : Option String
  container_no_1 : Option String
  container_no_2 : Option String
  iso_code_1 : Option String
  iso_code_2 : Option String
  finalizedAt : TVal
  createdAt : TVal
  time : TVal
  ts : TVal
  wagonRawTime : TVal
deriving DecidableEq

/-- A row with every field absent; concrete rows override the relevant fields. -/
def blankRow : Row :=
  { id := Option.none, wagon_no := Option.none, train_no := Option.none,
    side := Option.none, container_no_1 := Option.none, container_no_2 := Option.none,
    iso_code_1 := Option.none, iso_code_2 := Option.none,
    finalizedAt := TVal.none, createdAt := TVal.none, time := TVal.none,
    ts := TVal.none, wagonRawTime := TVal.none }

/-- A pending container detection (`pendingContainers` entries). -/
structure Pending where
  id : Option Int
  containerNumber : Option String
  tsRaw : Option String
  time : TVal
deriving DecidableEq

/-- The nullish chain of `rowTimestamp`:
`r?.wagonRaw?.time ?? r?.time ?? r?.finalizedAt ?? r?.createdAt ?? r?.ts ?? null`. -/
def Row.timeChain (r : Row) : TVal :=
  nullish r.wagonRawTime (nullish r.time (nullish r.finalizedAt (nullish r.createdAt r.ts)))

/-- The id fallback `r?.id ? Number(r.id) : 0` (a numeric id is its own `Number`). -/
def Row.idFallback (r : Row) : Int :=
  match r.id with
  | some i => if i != 0 then i else 0
  | Option.none => 0

/-- `rowTimestamp(r)` from the source: take the first non-nullish candidate among
`wagonRaw.time, time, finalizedAt, createdAt, ts`; if it is truthy, a numeric
candidate is used directly and a string candidate is `Date.parse`d; whenever the
result is not a finite number, fall back to the numeric id, else 0.
`dateParse` models `Date.parse`, `Option.none` standing for `NaN`. -/
def rowTimestamp (dateParse : String → Option Int) (r : Row) : Int :=
  let t := r.timeChain
  let parsed : Option Int :=
    if t.truthy then
      match t with
      | .num n => some n
      | .str s => dateParse s
      | .none => Option.none
    else Option.none
  match parsed with
  | some n => n
  | Option.none => r.idFallback

/-- The sort comparator `(a, b) => rowTimestamp(b) - rowTimestamp(a)` keeps `a`
before `b` exactly when its value is `≤ 0`. -/
def rowLe (dateParse : String → Option Int) (a b : Row) : Bool :=
  decide (rowTimestamp dateParse b - rowTimestamp dateParse a ≤ 0)

/-- `sortRowsDesc(rows)`: `[]` for non-array input (modelled by `Option.none`),
otherwise a stable sort of a copy of the array, newest timestamp first. -/
def sortRowsDesc (dateParse : String → Option Int) (rows : Option (List Row)) : List Row :=
  match rows with
  | Option.none => []
  | some l => l.mergeSort (rowLe dateParse)

/-- A trivial `Date.parse` model used for concrete inputs that carry no string
timestamps (every string fails to parse). -/
def noParse : String → Option Int := fun _ => Option.none

/-- The connection status values the component assigns. -/
inductive Status where
  | connecting
  | ready
  | socketConnected
  | socketError
  | socketDisconnected
  | polling
deriving DecidableEq

/-- A parsed lane response body (`r.data`): the `ok` flag and the three payload
fields, each possibly absent (`r.data.rows || []`, `r.data.buffer ?? …`). -/
structure LaneResp where
  ok : Bool
  rows : Option (List Row)
  pendingContainers : Option (List Pending)
  buffer : Option String
deriving DecidableEq

/-- The outcome of one lane request: a transport failure (axios rejection),
a malformed reply (`r.data` unusable, failing the `r && r.data` guard), or a
response body. -/
inductive FetchOutcome where
  | failure
  | malformed
  | response (d : LaneResp)
deriving DecidableEq

/-- The component's state: the two lanes, the shared buffer, the connection
status, the UI state, and the polling-timer handle (`pollRef.current`,
modelled by the interval it was created with). -/
structure AppState where
  leftRows : List Row
  rightRows : List Row
  leftPending : List Pending
  rightPending : List Pending
  buffer : Option String
  status : Status
  query : String
  showTentativeOnly : Bool
  pageSize : Nat
  pageLeft : Nat
  pageRight : Nat
  poll : Option Nat
deriving DecidableEq

/-- The state after mount: empty lanes, null buffer, `connecting`,
empty search, filter off, page size 25, both pages 0, no timer. -/
def mountState : AppState :=
  { leftRows := [], rightRows := [], leftPending := [], rightPending := [],
    buffer := Option.none, status := Status.connecting, query := "",
    showTentativeOnly := false, pageSize := 25, pageLeft := 0, pageRight := 0,
    poll := Option.none }

/-- Console output of one lane fetch: a transport failure is caught and logged
(`console.error('… err', …)`); every other outcome logs nothing here. -/
def fetchLog (name : String) (o : FetchOutcome) : List String :=
  match o with
  | .failure => [name ++ " err"]
  | _ => []

/-- One completed `fetchLeft` as a state transformer.  `bufClosure` is the value
of the `buffer` binding captured by the closure that ran this fetch (the mount
effect's handlers captured the initial `null`).  A failure is caught and the
state untouched; a malformed or non-`ok` body is ignored; an `ok` body replaces
the lane's rows (sorted) and pending list, and `buffer` becomes
`r.data.buffer ?? bufClosure`. -/
def fetchLeft (dateParse : String → Option Int) (bufClosure : Option String)
    (o : FetchOutcome) (s : AppState) : AppState :=
  match o with
  | .failure => s
  | .malformed => s
  | .response d =>
    if d.ok then
      { s with leftRows := sortRowsDesc dateParse (some (d.rows.getD [])),
               leftPending := d.pendingContainers.getD [],
               buffer := match d.buffer with
                         | some b => some b
                         | Option.none => bufClosure }
    else s

/-- One completed `fetchRight`, symmetric to `fetchLeft`. -/
def fetchRight (dateParse : String → Option Int) (bufClosure : Option String)
    (o : FetchOutcome) (s : AppState) : AppState :=
  match o with
  | .failure => s
  | .malformed => s
  | .response d =>
    if d.ok then
      { s with rightRows := sortRowsDesc dateParse (some (d.rows.getD [])),
               rightPending := d.pendingContainers.getD [],
               buffer := match d.buffer with
                         | some b => some b
                         | Option.none => bufClosure }
    else s

/-- `fetchAll` = `Promise.all([fetchLeft(), fetchRight()])`: both lane fetches
run and both outcomes are applied (each catches its own failure, so neither can
reject or block the other); the two writes touch disjoint lane fields and are
serialized here left-then-right. -/
def fetchAll (dateParse : String → Option Int) (bufClosure : Option String)
    (oL oR : FetchOutcome) (s : AppState) : AppState :=
  fetchRight dateParse bufClosure oR (fetchLeft dateParse bufClosure oL s)

/-- The initial refresh `fetchAll().then(() => setStatus('ready'))`: the status
becomes `ready` only after both lane fetches settled. -/
def initialRefresh (dateParse : String → Option Int) (oL oR : FetchOutcome)
    (s : AppState) : AppState :=
  { fetchAll dateParse Option.none oL oR s with status := Status.ready }

/-- Default of the `pollInterval` prop. -/
def defaultPollInterval : Nat := 5000

/-- `startPolling()`: a no-op when a timer already exists (`if (pollRef.current)
return`); otherwise installs the interval timer and sets status `polling`. -/
def startPolling (pollInterval : Nat) (s : AppState) : AppState :=
  match s.poll with
  | some _ => s
  | Option.none => { s with poll := some pollInterval, status := Status.polling }

/-- The `catch` branch of socket setup: `startPolling(); setStatus('polling')`. -/
def onSetupFailure (pollInterval : Nat) (s : AppState) : AppState :=
  { startPolling pollInterval s with status := Status.polling }

/-- The refresh intent a channel trigger maps to. -/
inductive RefreshIntent where
  | left
  | right
  | full
deriving DecidableEq

/-- The optional `{side}` payload of the generic `update` event. -/
structure UpdatePayload where
  side : Option String
deriving DecidableEq

/-- The `update` handler's dispatch: a missing payload is a full refresh,
`side === 'left'` and `side === 'right'` are lane refreshes, anything else a
full refresh. -/
def updateIntent (payload : Option UpdatePayload) : RefreshIntent :=
  match payload with
  | Option.none => RefreshIntent.full
  | some p =>
    if p.side == some "left" then RefreshIntent.left
    else if p.side == some "right" then RefreshIntent.right
    else RefreshIntent.full

/-- Run a refresh intent, given the outcome each lane request would produce. -/
def runIntent (dateParse : String → Option Int) (bufClosure : Option String)
    (i : RefreshIntent) (oL oR : FetchOutcome) (s : AppState) : AppState :=
  match i with
  | .left => fetchLeft dateParse bufClosure oL s
  | .right => fetchRight dateParse bufClosure oR s
  | .full => fetchAll dateParse bufClosure oL oR s

/-- Everything that can happen to a mounted session:
channel lifecycle callbacks, channel-triggered refreshes, poll ticks, the UI
handlers, the Refresh button, and teardown.  The channel and poll closures were
created by the mount effect, so their fetches captured `buffer = null`; the
Refresh button's closure is recreated on every render — modelled as capturing
the current `s.buffer`. -/
inductive SessionEvent where
  | connect
  | connectError
  | disconnect
  | socketTrigger (i : RefreshIntent) (oL oR : FetchOutcome)
  | pollTick (oL oR : FetchOutcome)
  | uiQuery (q : String)
  | uiToggleTentative (b : Bool)
  | uiPageSize (n : Nat)
  | uiRefresh (oL oR : FetchOutcome)
  | teardown
deriving DecidableEq

/-- The session step function, one event at a time. -/
def step (dateParse : String → Option Int) (pollInterval : Nat)
    (e : SessionEvent) (s : AppState) : AppState :=
  match e with
  | .connect => { s with status := Status.socketConnected }
  | .connectError => { startPolling pollInterval s with status := Status.socketError }
  | .disconnect => { startPolling pollInterval s with status := Status.socketDisconnected }
  | .socketTrigger i oL oR => runIntent dateParse Option.none i oL oR s
  | .pollTick oL oR => fetchAll dateParse Option.none oL oR s
  | .uiQuery q => { s with query := q, pageLeft := 0, pageRight := 0 }
  | .uiToggleTentative b => { s with showTentativeOnly := b }
  | .uiPageSize n => { s with pageSize := n, pageLeft := 0, pageRight := 0 }
  | .uiRefresh oL oR => fetchAll dateParse s.buffer oL oR s
  | .teardown => { s with poll := Option.none }

/-- JS `text.includes(q)`: `q` occurs as a contiguous substring of `text`. -/
def jsIncludes (text q : String) : Bool :=
  decide (List.IsInfix q.data text.data)

/-- The searchable text of a row:
```${row.wagon_no || ''} ${row.train_no || ''} ${row.container_no_1 || ''} ${row.container_no_2 || ''}``
lower-cased (a falsy field contributes the empty string). -/
def searchText (r : Row) : String :=
  (r.wagon_no.getD "" ++ " " ++ r.train_no.getD "" ++ " " ++
   r.container_no_1.getD "" ++ " " ++ r.container_no_2.getD "").toLower

/-- `filterFn`: reject when a non-empty query is not contained in the searchable
text; reject when the tentative-only switch is on and `row.finalizedAt` is
truthy; otherwise accept. -/
def filterFn (query : String) (showTentativeOnly : Bool) (r : Row) : Bool :=
  if query != "" && !(jsIncludes (searchText r) query.toLower) then false
  else if showTentativeOnly && r.finalizedAt.truthy then false
  else true

/-- `filteredLeft`: the left rows surviving `filterFn` under the current UI state. -/
def filteredLeft (s : AppState) : List Row :=
  s.leftRows.filter (filterFn s.query s.showTentativeOnly)

/-- `filteredRight`, symmetric to `filteredLeft`. -/
def filteredRight (s : AppState) : List Row :=
  s.rightRows.filter (filterFn s.query s.showTentativeOnly)

/-- `slice(page*pageSize, (page+1)*pageSize)` over a filtered sequence. -/
def pageWindow (page pageSize : Nat) (l : List Row) : List Row :=
  (l.drop (page * pageSize)).take pageSize

/-- `pagedLeft`: the visible window of the filtered left sequence. -/
def pagedLeft (s : AppState) : List Row :=
  pageWindow s.pageLeft s.pageSize (filteredLeft s)

/-- `pagedRight`, symmetric to `pagedLeft`. -/
def pagedRight (s : AppState) : List Row :=
  pageWindow s.pageRight s.pageSize (filteredRight s)

/-- The CSV header names, in column order. -/
def csvHeaders : List String :=
  ["id", "wagon_no", "train_no", "side", "container_no_1", "iso_code_1",
   "container_no_2", "iso_code_2", "finalizedAt", "time"]

/-- `String(v)` after `r[h] ?? ''`: null/undefined become `''`, strings stay,
numbers print in decimal. -/
def cellString : TVal → String
  | TVal.none => ""
  | TVal.num n => toString n
  | TVal.str s => s

/-- The dynamic field access `r[h]` for the header names, as a `TVal`. -/
def csvField (r : Row) (h : String) : TVal :=
  if h == "id" then match r.id with
                    | some i => TVal.num i
                    | Option.none => TVal.none
  else if h == "wagon_no" then match r.wagon_no with
                               | some v => TVal.str v
                               | Option.none => TVal.none
  else if h == "train_no" then match r.train_no with
                               | some v => TVal.str v
                               | Option.none => TVal.none
  else if h == "side" then match r.side with
                           | some v => TVal.str v
                           | Option.none => TVal.none
  else if h == "container_no_1" then match r.container_no_1 with
                                     | some v => TVal.str v
                                     | Option.none => TVal.none
  else if h == "iso_code_1" then match r.iso_code_1 with
                                 | some v => TVal.str v
                                 | Option.none => TVal.none
  else if h == "container_no_2" then match r.container_no_2 with
                                     | some v => TVal.str v
                                     | Option.none => TVal.none
  else if h == "iso_code_2" then match r.iso_code_2 with
                                 | some v => TVal.str v
                                 | Option.none => TVal.none
  else if h == "finalizedAt" then r.finalizedAt
  else if h == "time" then r.time
  else TVal.none

/-- The global regex replacement `s.replace(/"/g, '""')` character by
character: every double quote becomes two. -/
def escQuotes : List Char → List Char
  | [] => []
  | c :: cs => if c = '\"' then '\"' :: '\"' :: escQuotes cs else c :: escQuotes cs

/-- Quote a CSV value: wrap in double quotes, doubling embedded double quotes
(`'"' + s.replace(/"/g, '""') + '"'`). -/
def csvQuote (s : String) : String :=
  "\"" ++ String.mk (escQuotes s.data) ++ "\""

/-- One CSV data line for a row. -/
def csvLine (r : Row) : String :=
  String.intercalate "," (csvHeaders.map (fun h => csvQuote (cellString (csvField r h))))

/-- `downloadCsv(rows)`: no download when `rows` is empty, otherwise the file
text — the header line followed by one quoted line per row, newline-joined.
The produced file is modelled by `some` of its text. -/
def downloadCsv (rows : List Row) : Option String :=
  if rows.isEmpty then Option.none
  else some (String.intercalate "\n" (String.intercalate "," csvHeaders :: rows.map csvLine))

/-- The Export Left CSV button: `downloadCsv(filteredLeft, …)` — the filtered,
not the paged, sequence. -/
def exportLeftCsv (s : AppState) : Option String :=
  downloadCsv (filteredLeft s)

/-- The Export Right CSV button, symmetric to `exportLeftCsv`. -/
def exportRightCsv (s : AppState) : Option String :=
  downloadCsv (filteredRight s)

/-- Resolution of a selected timestamp candidate, in the spec's reading: a
truthy numeric candidate is the timestamp, a truthy string candidate is its
parsed value when it parses; in every other case the numeric id, else 0. -/
def amendedResolve (dateParse : String → Option Int) (c : TVal) (r : Row) : Int :=
  match c with
  | TVal.num n => if n != 0 then n else r.idFallback
  | TVal.str s =>
    if s != "" then
      match dateParse s with
      | some v => v
      | Option.none => r.idFallback
    else r.idFallback
  | TVal.none => r.idFallback

/-- The spec's claimed priority order, word for word: the first defined value
among raw-capture time, generic time, finalization time and creation time is
the candidate (the `ts` field is never consulted), with fallback to the numeric
id, then 0.  Stated for comparison with `rowTimestamp`. -/
def claimedTimestamp (dateParse : String → Option Int) (r : Row) : Int :=
  amendedResolve dateParse
    (([r.wagonRawTime, r.time, r.finalizedAt, r.createdAt].find?
        (fun t => t != TVal.none)).getD TVal.none) r

/-- The amended priority order: as claimed, but the `ts` field is consulted
after the creation time and before the id fallback. -/
def amendedTimestamp (dateParse : String → Option Int) (r : Row) : Int :=
  amendedResolve dateParse
    (([r.wagonRawTime, r.time, r.finalizedAt, r.createdAt, r.ts].find?
        (fun t => t != TVal.none)).getD TVal.none) r

/-- A row that carries only a `ts` timestamp and an id. -/
def tsOnlyRow : Row :=
  { blankRow with ts := TVal.num 1000, id := some 5 }

/-- The spec scenario row `{id:1, time:1000}`. -/
def scenarioRow1 : Row :=
  { blankRow with id := some 1, time := TVal.num 1000 }

/-- The spec scenario row `{id:2, time:2000}`. -/
def scenarioRow2 : Row :=
  { blankRow with id := some 2, time := TVal.num 2000 }

/-- The spec scenario lane response
`{ok:true, rows:[{id:1,time:1000},{id:2,time:2000}], pendingContainers:[], buffer:"B1"}`. -/
def scenarioResp : LaneResp :=
  { ok := true, rows := some [scenarioRow1, scenarioRow2],
    pendingContainers := some [], buffer := some "B1" }

/-- A row whose `finalizedAt` is the number 0: defined (non-null) but falsy. -/
def zeroFinalRow : Row :=
  { blankRow with finalizedAt := TVal.num 0 }

/-- An `ok:false` response body. -/
def okFalseResp : LaneResp :=
  { ok := false, rows := Option.none, pendingContainers := Option.none,
    buffer := Option.none }

/-- A successful response that carries no buffer value. -/
def noBufferResp : LaneResp :=
  { ok := true, rows := some [], pendingContainers := some [],
    buffer := Option.none }

/-- A state whose last successful fetch had set the buffer to `"B1"`. -/
def bufferB1State : AppState :=
  { mountState with buffer := some "B1" }

/-- A state sitting on non-zero pages of both lanes. -/
def pagedState : AppState :=
  { mountState with pageLeft := 2, pageRight := 3 }

/-- A row whose wagon number contains an embedded double quote. -/
def quoteRow : Row :=
  { blankRow with wagon_no := some "a\"b" }

/-! ## Ordering lemmas -/

theorem rowLe_trans (dateParse : String → Option Int) (a b c : Row) :
    rowLe dateParse a b = true → rowLe dateParse b c = true →
      rowLe dateParse a c = true := by
  simp only [rowLe, decide_eq_true_eq]
  omega

theorem rowLe_total (dateParse : String → Option Int) (a b : Row) :
    (rowLe dateParse a b || rowLe dateParse b a) = true := by
  simp only [rowLe, Bool.or_eq_true, decide_eq_true_eq]
  omega

theorem sortRowsDesc_pairwise (dateParse : String → Option Int) (rows : List Row) :
    (sortRowsDesc dateParse (some rows)).Pairwise
      (fun a b => rowTimestamp dateParse b ≤ rowTimestamp dateParse a) := by
  have h := List.sorted_mergeSort (rowLe_trans dateParse) (rowLe_total dateParse) rows
  simp only [sortRowsDesc]
  exact h.imp (fun hab => by simpa [rowLe, sub_nonpos] using hab)

theorem sortRowsDesc_filter_key (dateParse : String → Option Int) (rows : List Row)
    (k : Int) :
    (sortRowsDesc dateParse (some rows)).filter (fun r => rowTimestamp dateParse r == k)
      = rows.filter (fun r => rowTimestamp dateParse r == k) := by
  have hpair : (rows.filter (fun r => rowTimestamp dateParse r == k)).Pairwise
      (fun a b => rowLe dateParse a b = true) := by
    apply List.pairwise_of_forall_mem_list
    intro a ha b hb
    have ha2 := (List.mem_filter.mp ha).2
    have hb2 := (List.mem_filter.mp hb).2
    simp only [beq_iff_eq] at ha2 hb2
    simp [rowLe, ha2, hb2]
  have hsub : List.Sublist (rows.filter (fun r => rowTimestamp dateParse r == k))
      (List.mergeSort rows (rowLe dateParse)) :=
    List.sublist_mergeSort (rowLe_trans dateParse) (rowLe_total dateParse) hpair
      (List.filter_sublist rows)
  have heq : (rows.filter (fun r => rowTimestamp dateParse r == k)).filter
      (fun r => rowTimestamp dateParse r == k)
      = rows.filter (fun r => rowTimestamp dateParse r == k) :=
    List.filter_eq_self.mpr (fun a ha => (List.mem_filter.mp ha).2)
  have hsub2 : List.Sublist (rows.filter (fun r => rowTimestamp dateParse r == k))
      ((List.mergeSort rows (rowLe dateParse)).filter
        (fun r => rowTimestamp dateParse r == k)) := by
    have h2 := hsub.filter (fun r => rowTimestamp dateParse r == k)
    rwa [heq] at h2
  have hperm : List.Perm
      ((List.mergeSort rows (rowLe dateParse)).filter (fun r => rowTimestamp dateParse r == k))
      (rows.filter (fun r => rowTimestamp dateParse r == k)) :=
    (List.mergeSort_perm rows (rowLe dateParse)).filter _
  have hlen : (rows.filter (fun r => rowTimestamp dateParse r == k)).length
      = ((List.mergeSort rows (rowLe dateParse)).filter
          (fun r => rowTimestamp dateParse r == k)).length :=
    (hperm.length_eq).symm
  simpa [sortRowsDesc] using (hsub2.eq_of_length hlen).symm

theorem sortRowsDesc_idem (dateParse : String → Option Int) (rows : List Row) :
    sortRowsDesc dateParse (some (sortRowsDesc dateParse (some rows)))
      = sortRowsDesc dateParse (some rows) := by
  simp only [sortRowsDesc]
  exact List.mergeSort_of_sorted
    (List.sorted_mergeSort (rowLe_trans dateParse) (rowLe_total dateParse) rows)

theorem timeChain_eq_find (r : Row) :
    r.timeChain = ([r.wagonRawTime, r.time, r.finalizedAt, r.createdAt, r.ts].find?
        (fun t => t != TVal.none)).getD TVal.none := by
  rcases r with ⟨i, w, tn, sd, c1, c2, o1, o2, fin, cr, tm, ts, wrt⟩
  cases wrt <;> cases tm <;> cases fin <;> cases cr <;> cases ts <;> rfl

theorem mergeSort_pair {α : Type} (le : α → α → Bool) (a b : α) :
    List.mergeSort [a, b] le = if le a b then [a, b] else [b, a] := by
  rw [List.mergeSort]
  simp [List.splitInTwo, List.mergeSort, List.merge]

theorem scenario_sorted :
    sortRowsDesc noParse (some [scenarioRow1, scenarioRow2])
      = [scenarioRow2, scenarioRow1] := by
  have hle : rowLe noParse scenarioRow1 scenarioRow2 = false := by decide
  show List.mergeSort [scenarioRow1, scenarioRow2] (rowLe noParse) = _
  rw [mergeSort_pair, hle]
  simp

theorem rowTimestamp_eq_resolve (dateParse : String → Option Int) (r : Row) :
    rowTimestamp dateParse r = amendedResolve dateParse r.timeChain r := by
  cases h : r.timeChain with
  | none => simp [rowTimestamp, amendedResolve, h, TVal.truthy]
  | num n =>
    by_cases hn : n = 0 <;>
      simp [rowTimestamp, amendedResolve, h, TVal.truthy, hn]
  | str s =>
    by_cases hs : s = "" <;>
      simp [rowTimestamp, amendedResolve, h, TVal.truthy, hs]

/-! ## Claim theorems: ordering -/

/-- **C1, counterexample.**  The claim resolves `canonicalTimestamp` by
raw-capture time → time → finalizedAt → createdAt → numeric id → 0, with no
step for the `ts` field.  On the row `{ts: 1000, id: 5}` the code's
`rowTimestamp` consults `ts` and yields 1000, while the claimed order falls
through to the id and yields 5. -/
theorem claim_C1_counterexample :
    rowTimestamp noParse tsOnlyRow = 1000 ∧ claimedTimestamp noParse tsOnlyRow = 5 ∧
      rowTimestamp noParse tsOnlyRow ≠ claimedTimestamp noParse tsOnlyRow := by
  refine ⟨rfl, rfl, ?_⟩
  decide

/-- **C1, amended.**  `canonicalTimestamp` is resolved by the priority order
raw-capture time (`wagonRaw.time`) → generic `time` → `finalizedAt` →
`createdAt` → **`ts`** → numeric id → 0: the first non-null candidate is used
when it is truthy and parses to a finite number, otherwise the id fallback
applies.  The resolution is a total function, so it never fails to produce a
value. -/
theorem claim_C1 (dateParse : String → Option Int) (r : Row) :
    rowTimestamp dateParse r = amendedTimestamp dateParse r := by
  rw [rowTimestamp_eq_resolve]
  unfold amendedTimestamp
  rw [timeChain_eq_find]

/-- **C2.**  In every normalized sequence: a row with a strictly greater
`canonicalTimestamp` appears strictly earlier (descending, newest first); rows
with equal timestamps keep their input order (stability, stated as preservation of
every equal-timestamp fibre); and the spec scenario — a lane fetch returning
`rows:[{id:1,time:1000},{id:2,time:2000}]` — yields the derived unpaged view
`[id:2, id:1]`. -/
theorem claim_C2 (dateParse : String → Option Int) (rows : List Row) :
    (∀ (i j : Nat) (hi : i < (sortRowsDesc dateParse (some rows)).length)
       (hj : j < (sortRowsDesc dateParse (some rows)).length),
       rowTimestamp dateParse ((sortRowsDesc dateParse (some rows))[i]) >
         rowTimestamp dateParse ((sortRowsDesc dateParse (some rows))[j]) → i < j)
    ∧ (∀ k : Int,
        (sortRowsDesc dateParse (some rows)).filter (fun r => rowTimestamp dateParse r == k)
          = rows.filter (fun r => rowTimestamp dateParse r == k))
    ∧ filteredLeft (fetchLeft noParse Option.none (FetchOutcome.response scenarioResp)
        mountState) = [scenarioRow2, scenarioRow1] := by
  have hscen : filteredLeft (fetchLeft noParse Option.none
      (FetchOutcome.response scenarioResp) mountState) = [scenarioRow2, scenarioRow1] := by
    calc filteredLeft (fetchLeft noParse Option.none
          (FetchOutcome.response scenarioResp) mountState)
        = (sortRowsDesc noParse (some [scenarioRow1, scenarioRow2])).filter
            (filterFn "" false) := rfl
      _ = [scenarioRow2, scenarioRow1].filter (filterFn "" false) := by
            rw [scenario_sorted]
      _ = [scenarioRow2, scenarioRow1] := by decide
  refine ⟨?_, fun k => sortRowsDesc_filter_key dateParse rows k, hscen⟩
  intro i j hi hj hgt
  have hpw := (List.pairwise_iff_getElem).mp (sortRowsDesc_pairwise dateParse rows)
  rcases Nat.lt_trichotomy i j with h | h | h
  · exact h
  · subst h
    exact absurd hgt (lt_irrefl _)
  · have := hpw j i hj hi h
    omega

/-- **C3.**  Row normalization returns `[]` on non-array input, returns a new
sequence holding exactly the caller's rows (a permutation — the caller's array
is not reordered in place, the model being pure), and is idempotent:
`normalize (normalize rows) = normalize rows`. -/
theorem claim_C3 (dateParse : String → Option Int) (rows : List Row) :
    sortRowsDesc dateParse Option.none = []
    ∧ List.Perm (sortRowsDesc dateParse (some rows)) rows
    ∧ sortRowsDesc dateParse (some (sortRowsDesc dateParse (some rows)))
        = sortRowsDesc dateParse (some rows) := by
  refine ⟨rfl, ?_, sortRowsDesc_idem dateParse rows⟩
  simpa [sortRowsDesc] using List.mergeSort_perm rows (rowLe dateParse)

/-- Witness for C2 at the spec scenario: both sorted-position and scenario
conclusions, from `claim_C2` at `noParse` and `[scenarioRow1, scenarioRow2]`. -/
theorem claim_C2_witness :
    (0 : Nat) < 1 ∧ filteredLeft (fetchLeft noParse Option.none
      (FetchOutcome.response scenarioResp) mountState) = [scenarioRow2, scenarioRow1] := by
  have h := claim_C2 noParse [scenarioRow1, scenarioRow2]
  have hlen : (sortRowsDesc noParse (some [scenarioRow1, scenarioRow2])).length = 2 := by
    rw [scenario_sorted]
    rfl
  have h0 : 0 < (sortRowsDesc noParse (some [scenarioRow1, scenarioRow2])).length := by
    omega
  have h1 : 1 < (sortRowsDesc noParse (some [scenarioRow1, scenarioRow2])).length := by
    omega
  refine ⟨h.1 0 1 h0 h1 ?_, h.2.2⟩
  revert h0 h1
  simp only [scenario_sorted]
  intro h0 h1
  simp only [List.getElem_cons_zero, List.getElem_cons_succ]
  decide

/-! ## Claim theorems: fetch boundary and lane isolation -/

/-- **C4.**  A lane fetch is modelled by a total state transformer, so nothing
escapes its boundary; a transport failure is logged (`fetchLog`) and leaves the
state unchanged; a malformed or `ok:false` response leaves the state (rows,
pending, buffer) unchanged; within `fetchAll` a failure in one lane does not
block the other lane's update; and the initial refresh reports `ready` only
after both lane outcomes have been applied. -/
theorem claim_C4 (dateParse : String → Option Int) (b : Option String)
    (d : LaneResp) (oL oR : FetchOutcome) (s : AppState) :
    fetchLeft dateParse b FetchOutcome.failure s = s
    ∧ fetchRight dateParse b FetchOutcome.failure s = s
    ∧ fetchLeft dateParse b FetchOutcome.malformed s = s
    ∧ fetchRight dateParse b FetchOutcome.malformed s = s
    ∧ (d.ok = false → fetchLeft dateParse b (FetchOutcome.response d) s = s)
    ∧ (d.ok = false → fetchRight dateParse b (FetchOutcome.response d) s = s)
    ∧ fetchAll dateParse b FetchOutcome.failure oR s = fetchRight dateParse b oR s
    ∧ fetchAll dateParse b oL FetchOutcome.failure s = fetchLeft dateParse b oL s
    ∧ (initialRefresh dateParse oL oR s).status = Status.ready
    ∧ fetchLog "fetchLeft" FetchOutcome.failure = ["fetchLeft err"] := by
  refine ⟨rfl, rfl, rfl, rfl, ?_, ?_, rfl, rfl, rfl, rfl⟩
  · intro h
    simp [fetchLeft, h]
  · intro h
    simp [fetchRight, h]

/-- Witness for C4: an `ok:false` right-lane response leaves the state of a
mounted session unchanged. -/
theorem claim_C4_witness :
    fetchRight noParse Option.none (FetchOutcome.response okFalseResp) mountState
      = mountState := by
  have h := claim_C4 noParse Option.none okFalseResp FetchOutcome.failure
    FetchOutcome.failure mountState
  exact h.2.2.2.2.2.1 rfl

/-! ## Claim theorems: filtering -/

/-- **C5, counterexample.**  The claim says the tentative-only filter excludes
every row with a non-null `finalizedAt`.  A row with `finalizedAt = 0` has a
non-null `finalizedAt`, yet `filterFn` keeps it, because the code tests JS
truthiness (`row.finalizedAt`), not null-ness. -/
theorem claim_C5_counterexample :
    zeroFinalRow.finalizedAt ≠ TVal.none ∧ filterFn "" true zeroFinalRow = true := by
  decide

/-- **C5, amended.**  A row passes the filter iff (the search text is empty OR
the lower-cased concatenation of the searchable fields contains the lower-cased
search text) AND NOT (the tentative-only switch is on and the row's
`finalizedAt` is truthy — non-null, non-zero, non-empty). -/
theorem claim_C5 (query : String) (tentativeOnly : Bool) (r : Row) :
    filterFn query tentativeOnly r = true ↔
      ((query = "" ∨ jsIncludes (searchText r) query.toLower = true)
        ∧ ¬(tentativeOnly = true ∧ r.finalizedAt.truthy = true)) := by
  unfold filterFn
  by_cases hq : query = "" <;>
    by_cases hj : jsIncludes (searchText r) query.toLower = true <;>
    by_cases ht : tentativeOnly = true <;>
    by_cases hf : r.finalizedAt.truthy = true <;>
    simp [hq, hj, ht, hf]

/-- Witness for C5: the amended filter characterization at concrete inputs. -/
theorem claim_C5_witness :
    filterFn "" true blankRow = true ↔
      ((("" : String) = "" ∨ jsIncludes (searchText blankRow) ("" : String).toLower = true)
        ∧ ¬(true = true ∧ blankRow.finalizedAt.truthy = true)) :=
  claim_C5 "" true blankRow

/-! ## Claim theorems: pagination resets -/

/-- **C6, counterexample.**  The claim says toggling the tentative-only filter
resets both lane page indices to 0.  The checkbox handler only calls
`setShowTentativeOnly`; from pages 2 and 3 the indices stay 2 and 3. -/
theorem claim_C6_counterexample :
    (step noParse defaultPollInterval (SessionEvent.uiToggleTentative true) pagedState).pageLeft = 2
    ∧ (step noParse defaultPollInterval (SessionEvent.uiToggleTentative true) pagedState).pageRight = 3
    ∧ (step noParse defaultPollInterval (SessionEvent.uiToggleTentative true) pagedState).pageLeft ≠ 0 := by
  decide

/-- **C6, amended.**  Changing the search text resets both lane page indices
to 0, and so does changing the page size; toggling the tentative-only filter
leaves both page indices unchanged. -/
theorem claim_C6 (dateParse : String → Option Int) (pollInterval : Nat)
    (q : String) (n : Nat) (b : Bool) (s : AppState) :
    (step dateParse pollInterval (SessionEvent.uiQuery q) s).pageLeft = 0
    ∧ (step dateParse pollInterval (SessionEvent.uiQuery q) s).pageRight = 0
    ∧ (step dateParse pollInterval (SessionEvent.uiPageSize n) s).pageLeft = 0
    ∧ (step dateParse pollInterval (SessionEvent.uiPageSize n) s).pageRight = 0
    ∧ (step dateParse pollInterval (SessionEvent.uiToggleTentative b) s).pageLeft = s.pageLeft
    ∧ (step dateParse pollInterval (SessionEvent.uiToggleTentative b) s).pageRight = s.pageRight :=
  ⟨rfl, rfl, rfl, rfl, rfl, rfl⟩

/-! ## Claim theorems: CSV export -/

/-- **C7, counterexample.**  The claim calls the schema a 9-column CSV; the
header list has 10 entries. -/
theorem claim_C7_counterexample :
    csvHeaders.length = 10 ∧ csvHeaders.length ≠ 9 := by
  decide

/-- **C7, amended.**  CSV export serializes the filtered (not paged) sequence
of a lane — it is invariant under the page indices — to a fixed **10**-column
schema with header row
`id,wagon_no,train_no,side,container_no_1,iso_code_1,container_no_2,iso_code_2,finalizedAt,time`;
every value is double-quoted with embedded quotes doubled (shown concretely on
a wagon number containing a quote); and exporting an empty filtered sequence
is a no-op (no download value is produced exactly for the empty sequence). -/
theorem claim_C7 (s : AppState) (rows : List Row) (pL pR : Nat) :
    csvHeaders.length = 10
    ∧ String.intercalate "," csvHeaders
        = "id,wagon_no,train_no,side,container_no_1,iso_code_1,container_no_2,iso_code_2,finalizedAt,time"
    ∧ (downloadCsv rows = Option.none ↔ rows = [])
    ∧ exportLeftCsv s = downloadCsv (s.leftRows.filter (filterFn s.query s.showTentativeOnly))
    ∧ exportRightCsv s = downloadCsv (s.rightRows.filter (filterFn s.query s.showTentativeOnly))
    ∧ exportLeftCsv { s with pageLeft := pL, pageRight := pR } = exportLeftCsv s
    ∧ exportRightCsv { s with pageLeft := pL, pageRight := pR } = exportRightCsv s
    ∧ csvLine quoteRow
        = "\"\",\"a\"\"b\",\"\",\"\",\"\",\"\",\"\",\"\",\"\",\"\"" := by
  refine ⟨rfl, by decide, ?_, rfl, rfl, rfl, rfl, by decide⟩
  cases rows with
  | nil => simp [downloadCsv]
  | cons a l => simp [downloadCsv]

/-- Witness for C7 at a mounted session and the empty row list. -/
theorem claim_C7_witness :
    exportLeftCsv mountState = downloadCsv
      (mountState.leftRows.filter (filterFn mountState.query mountState.showTentativeOnly)) :=
  (claim_C7 mountState [] 0 0).2.2.2.1

/-! ## Claim theorems: buffer retention -/

/-- **C8** (claim right, code wrong).  The source writes
`setBuffer(r.data.buffer ?? buffer)`, intending to retain the previous buffer
when the response carries none — but the channel and polling handlers run the
mount render's closures, whose `buffer` binding is the initial `null`.  With
the buffer last set to `"B1"`, a channel-triggered successful fetch whose
response has no buffer value resets the buffer to `null` instead of retaining
`"B1"`.  The retention does hold on paths free of the stale closure: the
Refresh button's fetch, a fetch that fails, and an `ok:false` response. -/
theorem claim_C8_bug :
    bufferB1State.buffer = some "B1"
    ∧ (step noParse defaultPollInterval
        (SessionEvent.socketTrigger RefreshIntent.left
          (FetchOutcome.response noBufferResp) FetchOutcome.failure) bufferB1State).buffer
        = Option.none
    ∧ (step noParse defaultPollInterval
        (SessionEvent.uiRefresh (FetchOutcome.response noBufferResp) FetchOutcome.failure)
          bufferB1State).buffer = some "B1"
    ∧ (step noParse defaultPollInterval
        (SessionEvent.socketTrigger RefreshIntent.left FetchOutcome.failure FetchOutcome.failure)
          bufferB1State).buffer = some "B1"
    ∧ (fetchRight noParse Option.none (FetchOutcome.response okFalseResp) bufferB1State).buffer
        = some "B1" := by
  decide

/-! ## Claim theorems: update-event dispatch -/

/-- **C9.**  An `update` event with `{side:'left'}` refreshes only the left
lane (the right lane's rows and pending items are untouched), symmetrically for
`{side:'right'}`; an absent payload or an unrecognized side value dispatches a
full refresh. -/
theorem claim_C9 (dateParse : String → Option Int) (pollInterval : Nat)
    (oL oR : FetchOutcome) (s : AppState) :
    updateIntent (some { side := some "left" }) = RefreshIntent.left
    ∧ updateIntent (some { side := some "right" }) = RefreshIntent.right
    ∧ updateIntent Option.none = RefreshIntent.full
    ∧ (∀ sv : Option String, sv ≠ some "left" → sv ≠ some "right" →
        updateIntent (some { side := sv }) = RefreshIntent.full)
    ∧ (step dateParse pollInterval (SessionEvent.socketTrigger RefreshIntent.left oL oR) s).rightRows
        = s.rightRows
    ∧ (step dateParse pollInterval (SessionEvent.socketTrigger RefreshIntent.left oL oR) s).rightPending
        = s.rightPending
    ∧ (step dateParse pollInterval (SessionEvent.socketTrigger RefreshIntent.right oL oR) s).leftRows
        = s.leftRows
    ∧ (step dateParse pollInterval (SessionEvent.socketTrigger RefreshIntent.right oL oR) s).leftPending
        = s.leftPending := by
  refine ⟨rfl, rfl, rfl, ?_, ?_, ?_, ?_, ?_⟩
  · intro sv h1 h2
    simp only [updateIntent]
    rw [if_neg, if_neg]
    · simpa using h2
    · simpa using h1
  · cases oL with
    | failure => rfl
    | malformed => rfl
    | response d => by_cases hd : d.ok = true <;> simp [step, runIntent, fetchLeft, hd]
  · cases oL with
    | failure => rfl
    | malformed => rfl
    | response d => by_cases hd : d.ok = true <;> simp [step, runIntent, fetchLeft, hd]
  · cases oR with
    | failure => rfl
    | malformed => rfl
    | response d => by_cases hd : d.ok = true <;> simp [step, runIntent, fetchRight, hd]
  · cases oR with
    | failure => rfl
    | malformed => rfl
    | response d => by_cases hd : d.ok = true <;> simp [step, runIntent, fetchRight, hd]

/-- Witness for C9: an unrecognized side value dispatches a full refresh, and a
left-scoped trigger leaves the right rows of a mounted session in place. -/
theorem claim_C9_witness :
    updateIntent (some { side := some "up" }) = RefreshIntent.full
    ∧ (step noParse defaultPollInterval
        (SessionEvent.socketTrigger RefreshIntent.left FetchOutcome.failure FetchOutcome.failure)
          mountState).rightRows = mountState.rightRows := by
  have h := claim_C9 noParse defaultPollInterval FetchOutcome.failure FetchOutcome.failure mountState
  exact ⟨h.2.2.2.1 (some "up") (by decide) (by decide), h.2.2.2.2.1⟩

/-! ## Claim theorems: polling scheduler -/

theorem fetchLeft_poll (dateParse : String → Option Int) (b : Option String)
    (o : FetchOutcome) (s : AppState) : (fetchLeft dateParse b o s).poll = s.poll := by
  cases o with
  | failure => rfl
  | malformed => rfl
  | response d => by_cases hd : d.ok = true <;> simp [fetchLeft, hd]

theorem fetchRight_poll (dateParse : String → Option Int) (b : Option String)
    (o : FetchOutcome) (s : AppState) : (fetchRight dateParse b o s).poll = s.poll := by
  cases o with
  | failure => rfl
  | malformed => rfl
  | response d => by_cases hd : d.ok = true <;> simp [fetchRight, hd]

theorem fetchAll_poll (dateParse : String → Option Int) (b : Option String)
    (oL oR : FetchOutcome) (s : AppState) :
    (fetchAll dateParse b oL oR s).poll = s.poll := by
  show (fetchRight dateParse b oR (fetchLeft dateParse b oL s)).poll = s.poll
  rw [fetchRight_poll, fetchLeft_poll]

theorem runIntent_poll (dateParse : String → Option Int) (b : Option String)
    (i : RefreshIntent) (oL oR : FetchOutcome) (s : AppState) :
    (runIntent dateParse b i oL oR s).poll = s.poll := by
  cases i with
  | left => exact fetchLeft_poll dateParse b oL s
  | right => exact fetchRight_poll dateParse b oR s
  | full => exact fetchAll_poll dateParse b oL oR s

/-- **C10.**  A synchronous channel-setup failure starts polling and sets
status `polling`, installing the repeating timer at the configured interval
(default 5000 ms) whose ticks run `fetchAll`; starting polling is idempotent —
with a timer already present a second start request changes nothing, so at most
one timer exists; and the timer survives every session event (in particular a
channel reconnect) except teardown, which clears it. -/
theorem claim_C10 (dateParse : String → Option Int) (pollInterval : Nat)
    (s : AppState) (e : SessionEvent) (t : Nat) (oL oR : FetchOutcome) :
    defaultPollInterval = 5000
    ∧ (s.poll = Option.none →
        (onSetupFailure pollInterval s).status = Status.polling
        ∧ (onSetupFailure pollInterval s).poll = some pollInterval)
    ∧ step dateParse pollInterval (SessionEvent.pollTick oL oR) s
        = fetchAll dateParse Option.none oL oR s
    ∧ startPolling pollInterval (startPolling pollInterval s) = startPolling pollInterval s
    ∧ (s.poll = some t → startPolling pollInterval s = s)
    ∧ (s.poll = some t → e ≠ SessionEvent.teardown → (step dateParse pollInterval e s).poll = some t)
    ∧ (step dateParse pollInterval SessionEvent.teardown s).poll = Option.none := by
  refine ⟨rfl, ?_, rfl, ?_, ?_, ?_, rfl⟩
  · intro h
    constructor <;> simp [onSetupFailure, startPolling, h]
  · cases hs : s.poll <;> simp [startPolling, hs]
  · intro h
    simp [startPolling, h]
  · intro h he
    cases e with
    | connect => simpa using h
    | connectError => simp [step, startPolling, h]
    | disconnect => simp [step, startPolling, h]
    | socketTrigger i oL2 oR2 =>
      exact (runIntent_poll dateParse Option.none i oL2 oR2 s).trans h
    | pollTick oL2 oR2 =>
      exact (fetchAll_poll dateParse Option.none oL2 oR2 s).trans h
    | uiQuery q => simpa using h
    | uiToggleTentative b => simpa using h
    | uiPageSize n => simpa using h
    | uiRefresh oL2 oR2 =>
      exact (fetchAll_poll dateParse s.buffer oL2 oR2 s).trans h
    | teardown => exact absurd rfl he

/-- Witness for C10: a setup failure on the mounted state starts the `polling`
status, and a `connect` event leaves an installed timer in place. -/
theorem claim_C10_witness :
    (onSetupFailure defaultPollInterval mountState).status = Status.polling
    ∧ (step noParse defaultPollInterval SessionEvent.connect
        { mountState with poll := some 5000 }).poll = some 5000 := by
  refine ⟨((claim_C10 noParse defaultPollInterval mountState SessionEvent.connect 5000
    FetchOutcome.failure FetchOutcome.failure).2.1 rfl).1, ?_⟩
  exact (claim_C10 noParse defaultPollInterval { mountState with poll := some 5000 }
    SessionEvent.connect 5000 FetchOutcome.failure FetchOutcome.failure).2.2.2.2.2.1 rfl
    (by decide)

end Sequencing
